import Mathlib

/-!
Verification development for the bim-quantify repository.

The program ingests an IFC building model through the opaque `web-ifc`
decoder, derives quantity metrics with fallback chains, assigns elements to
storeys, bakes triangle geometry, and drives an interactive orbit/measure
viewer.  Decoded entity records are dynamic JavaScript values, modelled here
by the inductive type `JSVal`; the decoder itself is modelled as an abstract
`IfcApi` whose lookups may throw (`Except Unit`).  Numbers are modelled by
`ℚ` (the claims under study never depend on floating-point rounding).
-/

namespace BimQuantify

/-- A dynamic JavaScript value as returned by the `web-ifc` decoder:
`undefined`, `null`, booleans, numbers, strings, objects (field lists) and
arrays. -/
inductive JSVal where
  | undef
  | jsNull
  | bool (b : Bool)
  | num (q : ℚ)
  | str (s : String)
  | obj (fields : List (String × JSVal))
  | arr (elems : List JSVal)

mutual

/-- Structural equality of dynamic values.  This agrees with JavaScript
`SameValueZero` (used by `===`, `Map` keys and `Set` membership) on
primitives; for objects and arrays `SameValueZero` is reference identity,
which the heap-free model approximates structurally — the claims settled
here only ever compare primitive (numeric) keys. -/
def jsEq : JSVal → JSVal → Bool
  | .undef, .undef => true
  | .jsNull, .jsNull => true
  | .bool a, .bool b => a == b
  | .num a, .num b => a == b
  | .str a, .str b => a == b
  | .obj fs, .obj gs => jsEqFields fs gs
  | .arr xs, .arr ys => jsEqElems xs ys
  | _, _ => false

/-- Structural equality of object field lists. -/
def jsEqFields : List (String × JSVal) → List (String × JSVal) → Bool
  | [], [] => true
  | (k, v) :: fs, (l, w) :: gs => k == l && jsEq v w && jsEqFields fs gs
  | _, _ => false

/-- Structural equality of array element lists. -/
def jsEqElems : List JSVal → List JSVal → Bool
  | [], [] => true
  | x :: xs, y :: ys => jsEq x y && jsEqElems xs ys
  | _, _ => false

end

namespace JSVal

/-- JavaScript truthiness: `undefined`, `null`, `false`, `0` and `""` are
falsy, everything else is truthy. -/
def truthy : JSVal → Bool
  | undef => false
  | jsNull => false
  | bool b => b
  | num q => !(q == 0)
  | str s => !(s == "")
  | obj _ => true
  | arr _ => true

/-- Loose test `x == null` / `x != null`: true exactly on `undefined` and
`null`. -/
def nullish : JSVal → Bool
  | undef => true
  | jsNull => true
  | _ => false

/-- Test `typeof x === 'object'` (true for objects, arrays and `null`). -/
def isObjectType : JSVal → Bool
  | obj _ => true
  | arr _ => true
  | jsNull => true
  | _ => false

/-- Test `typeof x === 'number'`. -/
def isNumber : JSVal → Bool
  | num _ => true
  | _ => false

/-- Property read `x.f` on a receiver known not to be nullish: objects give
the field (or `undefined` when absent), primitives give `undefined`. -/
def getF : JSVal → String → JSVal
  | obj fields, name =>
    match fields.find? (fun p => p.1 == name) with
    | some p => p.2
    | none => undef
  | _, _ => undef

/-- Property read `x.f` as an expression: accessing a property of
`undefined` or `null` throws a `TypeError`. -/
def getFieldE (v : JSVal) (name : String) : Except Unit JSVal :=
  if v.nullish then .error () else .ok (v.getF name)

/-- Optional chain `x?.f`: `undefined` on a nullish receiver, otherwise a
plain property read. -/
def optChain (v : JSVal) (name : String) : JSVal :=
  if v.nullish then undef else v.getF name

/-- Nullish coalescing `a ?? b`. -/
def coalesce (a b : JSVal) : JSVal := if a.nullish then b else a

/-- Truthiness-based or `a || b`. -/
def orElse (a b : JSVal) : JSVal := if a.truthy then a else b

/-- Iteration `for (const x of v)`: arrays yield their elements, strings their
characters (as one-character strings); any other value is not iterable and
throws a `TypeError`. -/
def iterateE : JSVal → Except Unit (List JSVal)
  | arr elems => .ok elems
  | str s => .ok (s.data.map (fun c => str (String.mk [c])))
  | _ => .error ()

end JSVal

/-- A 3D point or vector with rational coordinates. -/
structure Vec3 where
  x : ℚ
  y : ℚ
  z : ℚ
deriving DecidableEq

/-- A 16-element placement matrix exactly as laid out in the decoder's
`flatTransformation` array: elements `m0..m3` are the first column,
`m12..m14` the translation (column-major layout). -/
structure Mat16 where
  m0 : ℚ
  m1 : ℚ
  m2 : ℚ
  m3 : ℚ
  m4 : ℚ
  m5 : ℚ
  m6 : ℚ
  m7 : ℚ
  m8 : ℚ
  m9 : ℚ
  m10 : ℚ
  m11 : ℚ
  m12 : ℚ
  m13 : ℚ
  m14 : ℚ
  m15 : ℚ
deriving DecidableEq

/-- One placed geometric part of a flat mesh: an interleaved vertex buffer
in which every vertex occupies six scalar slots (position x,y,z then three
further slots — normals — not consumed by the paths modelled here, hence
each buffer entry is a position/rest pair), and the 16-element column-major
placement matrix `flatTransformation`. -/
structure PlacedGeom where
  verts : List (Vec3 × Vec3)
  matrix : Mat16
deriving DecidableEq

/-- The `web-ifc` decoder as used by the parser: enumerate entity ids by
numeric type tag, decode a record by id (may throw), and fetch the placed
geometry parts of an element's flat mesh (may throw). -/
structure IfcApi where
  getLineIDsWithType : Nat → List Nat
  getLine : Nat → Bool → Except Unit JSVal
  getFlatMesh : Nat → Except Unit (List PlacedGeom)

/-- A dynamic value used as an entity id: `GetLine` succeeds only on a
non-negative integral number; any other id value makes the decoder throw. -/
def jsvalNatId (v : JSVal) : Option Nat :=
  match v with
  | .num q => if q.den == 1 && 0 ≤ q.num then some q.num.toNat else none
  | _ => none

/-- Decode `ifcApi.GetLine(modelID, v, flag)` with a dynamic id value. -/
def getLineDynE (api : IfcApi) (v : JSVal) (flag : Bool) : Except Unit JSVal :=
  match jsvalNatId v with
  | some n => api.getLine n flag
  | none => .error ()

/-- Membership test `quantityNames.includes(nameVal)`: strict-equality membership, so only
string values can match. -/
def nameMatches (names : List String) (nameVal : JSVal) : Bool :=
  match nameVal with
  | .str s => names.contains s
  | _ => false

/-- Optional-chained read `w?.value` of the `value` attribute. -/
def optValueOf (w : JSVal) : JSVal :=
  if w.nullish then .undef else w.getF ("value")

/-- The chain `quantity.AreaValue?.value ?? quantity.VolumeValue?.value ??
quantity.LengthValue?.value ?? quantity.NominalValue?.value` from the
quantity branch of `extractQuantityFromPsets`. -/
def quantityChainValue (quantity : JSVal) : JSVal :=
  JSVal.coalesce (optValueOf (quantity.getF ("AreaValue")))
    (JSVal.coalesce (optValueOf (quantity.getF ("VolumeValue")))
      (JSVal.coalesce (optValueOf (quantity.getF ("LengthValue")))
        (optValueOf (quantity.getF ("NominalValue")))))

/-- The numeric acceptance test at the end of both property branches:
`if (val != null && typeof val === 'number') return val`. -/
def numericValue (val : JSVal) : Option ℚ :=
  match val with
  | .num x => some x
  | _ => none

/-- The `Quantities` loop of `extractQuantityFromPsets`: scan the physical
quantities of one property set for the first candidate name carrying a
numeric value.  A decoder throw propagates to the per-relation catch. -/
def scanQuantities (api : IfcApi) (names : List String) :
    List JSVal → Except Unit (Option ℚ)
  | [] => .ok none
  | q :: rest =>
    if !q.truthy || !(q.getF ("value")).truthy then scanQuantities api names rest
    else
      match getLineDynE api (q.getF ("value")) false with
      | .error e => .error e
      | .ok quantity =>
        if quantity.truthy && (quantity.getF ("Name")).truthy
            && nameMatches names ((quantity.getF ("Name")).getF ("value")) then
          match numericValue (quantityChainValue quantity) with
          | some x => .ok (some x)
          | none => scanQuantities api names rest
        else scanQuantities api names rest

/-- The `HasProperties` loop of `extractQuantityFromPsets`: scan the simple
properties of one property set for the first candidate name carrying a
numeric `NominalValue`. -/
def scanProperties (api : IfcApi) (names : List String) :
    List JSVal → Except Unit (Option ℚ)
  | [] => .ok none
  | p :: rest =>
    if !p.truthy || !(p.getF ("value")).truthy then scanProperties api names rest
    else
      match getLineDynE api (p.getF ("value")) false with
      | .error e => .error e
      | .ok prop =>
        if prop.truthy && (prop.getF ("Name")).truthy
            && nameMatches names ((prop.getF ("Name")).getF ("value")) then
          match numericValue (optValueOf (prop.getF ("NominalValue"))) with
          | some x => .ok (some x)
          | none => scanProperties api names rest
        else scanProperties api names rest

/-- The body of one `IsDefinedBy` relation inside its `try`: resolve the
relation line, follow `RelatingPropertyDefinition` to the property set, and
scan first its `Quantities`, then its `HasProperties`. -/
def relLineBody (api : IfcApi) (names : List String) (relValue : JSVal) :
    Except Unit (Option ℚ) :=
  match getLineDynE api relValue true with
  | .error e => .error e
  | .ok relLine =>
    if relLine.truthy && (relLine.getF ("RelatingPropertyDefinition")).truthy then
      let psetRef := relLine.getF ("RelatingPropertyDefinition")
      match (if psetRef.isObjectType && (psetRef.getF ("value")).truthy then
               getLineDynE api (psetRef.getF ("value")) true
             else .ok JSVal.jsNull : Except Unit JSVal) with
      | .error e => .error e
      | .ok pset =>
        match (if pset.truthy && (pset.getF ("Quantities")).truthy then
                 match (pset.getF ("Quantities")).iterateE with
                 | .error e => .error e
                 | .ok qs => scanQuantities api names qs
               else .ok none : Except Unit (Option ℚ)) with
        | .error e => .error e
        | .ok (some x) => .ok (some x)
        | .ok none =>
          if pset.truthy && (pset.getF ("HasProperties")).truthy then
            match (pset.getF ("HasProperties")).iterateE with
            | .error e => .error e
            | .ok ps => scanProperties api names ps
          else .ok none
    else .ok none

/-- The `IsDefinedBy` loop: each relation body runs in its own `try`, a
throw there is caught and the loop continues with the next relation. -/
def loopRels (api : IfcApi) (names : List String) : List JSVal → Option ℚ
  | [] => none
  | rel :: rest =>
    if !rel.truthy || !(rel.getF ("value")).truthy then loopRels api names rest
    else
      match relLineBody api names (rel.getF ("value")) with
      | .ok (some x) => some x
      | .ok none => loopRels api names rest
      | .error _ => loopRels api names rest

/-- Everything inside the outer `try` of `extractQuantityFromPsets`: a
propagated `.error` corresponds to an exception reaching the outer
`catch`. -/
def extractBody (api : IfcApi) (elementID : Nat) (names : List String) :
    Except Unit (Option ℚ) :=
  match api.getLine elementID true with
  | .error e => .error e
  | .ok psets =>
    if !psets.truthy then .ok none
    else if (psets.getF ("IsDefinedBy")).truthy then
      match (psets.getF ("IsDefinedBy")).iterateE with
      | .error e => .error e
      | .ok rels => .ok (loopRels api names rels)
    else .ok none

/-- The quantity resolver `extractQuantityFromPsets`: walk the element's
`IsDefinedBy` relations to its property sets and return the first numeric
match of `names`, `null` on any failure (the outer `catch`). -/
def extractQuantityFromPsets (api : IfcApi) (elementID : Nat)
    (names : List String) : Option ℚ :=
  match extractBody api elementID names with
  | .ok r => r
  | .error _ => none

/-- Axis-aligned bounds, as produced by `computeBoundingBox`. -/
structure BBox where
  minX : ℚ
  minY : ℚ
  minZ : ℚ
  maxX : ℚ
  maxY : ℚ
  maxZ : ℚ
deriving DecidableEq

/-- The per-vertex placement transform of `computeBoundingBox` (reading
`matrix[0], matrix[4], matrix[8], matrix[12]` for the x output and so on). -/
def applyPlacement (m : Mat16) (x y z : ℚ) : Vec3 :=
  ⟨m.m0 * x + m.m4 * y + m.m8 * z + m.m12,
   m.m1 * x + m.m5 * y + m.m9 * z + m.m13,
   m.m2 * x + m.m6 * y + m.m10 * z + m.m14⟩

/-- Fold one transformed vertex into the running min/max bounds (the
`Infinity` initialisation of the source is modelled by `none`, and the
final `minX === Infinity` test by the fold never having seen a vertex). -/
def expandBBox (acc : Option BBox) (p : Vec3) : Option BBox :=
  match acc with
  | none => some ⟨p.x, p.y, p.z, p.x, p.y, p.z⟩
  | some b => some ⟨min b.minX p.x, min b.minY p.y, min b.minZ p.z,
                    max b.maxX p.x, max b.maxY p.y, max b.maxZ p.z⟩

/-- The function `computeBoundingBox`: transform every vertex of every placed geometry
of the element's flat mesh and fold into axis-aligned bounds; `null` when
the mesh is missing, empty, or produced no vertices. -/
def computeBoundingBox (api : IfcApi) (elementID : Nat) : Option BBox :=
  match api.getFlatMesh elementID with
  | .error _ => none
  | .ok geoms =>
    if geoms.isEmpty then none
    else
      geoms.foldl (fun acc g =>
        g.verts.foldl (fun acc v =>
          expandBBox acc (applyPlacement g.matrix v.1.x v.1.y v.1.z)) acc) none

/-- Opaque numeric entity-type tags of the external decoder (the concrete
values of the `web-ifc` constants are irrelevant; only their identity is
used). -/
def IFCSPACE : Nat := 1

/-- Type tag for slab entities. -/
def IFCSLAB : Nat := 2

/-- Type tag for wall entities. -/
def IFCWALL : Nat := 3

/-- Type tag for standard-case wall entities. -/
def IFCWALLSTANDARDCASE : Nat := 4

/-- Type tag for column entities. -/
def IFCCOLUMN : Nat := 5

/-- Type tag for beam entities. -/
def IFCBEAM : Nat := 6

/-- Type tag for building-storey entities. -/
def IFCBUILDINGSTOREY : Nat := 7

/-- Type tag for spatial containment relations. -/
def IFCRELCONTAINEDINSPATIALSTRUCTURE : Nat := 8

/-- Type tag for aggregation relations. -/
def IFCRELAGGREGATES : Nat := 9

/-- The fixed structural type set iterated by the total-volume section. -/
def STRUCTURAL_TYPES : List Nat :=
  [IFCWALL, IFCWALLSTANDARDCASE, IFCSLAB, IFCCOLUMN, IFCBEAM]

/-- The candidate quantity names tried on space entities for gross floor
area. -/
def spaceAreaNames : List String :=
  ["GrossFloorArea", "NetFloorArea", "Area", "GrossArea", "NetArea"]

/-- The candidate quantity names tried on slab entities for gross floor
area. -/
def slabAreaNames : List String :=
  ["GrossArea", "NetArea", "Area", "GrossSideArea"]

/-- The candidate quantity names tried for element volumes. -/
def volumeNames : List String := ["NetVolume", "GrossVolume", "Volume"]

/-- JavaScript `Math.round`: round half toward positive infinity. -/
def jsRound (t : ℚ) : ℤ := ⌊t + 1 / 2⌋

/-- Rounding `Math.round(x * 100) / 100` to two decimal places. -/
def round2 (q : ℚ) : ℚ := (jsRound (q * 100) : ℚ) / 100

/-- One step of the accumulate-and-mark-found pattern shared by the gross
floor area tiers: add the resolved value and set `found` when `g` yields a
value, otherwise leave the accumulator alone. -/
def sumFoundStep (g : Nat → Option ℚ) (acc : ℚ × Bool) (i : Nat) : ℚ × Bool :=
  match g i with
  | some a => (acc.1 + a, true)
  | none => acc

/-- The gross-floor-area section of `parseIFCFile`: sum resolver results
over spaces; if no space yielded a value, sum resolver results over slabs;
if still nothing, sum bounding-box XY areas over slabs; round the total, or
`null` when no tier produced anything. -/
def grossFloorArea (api : IfcApi) : Option ℚ :=
  let t1 := (api.getLineIDsWithType IFCSPACE).foldl
    (sumFoundStep (fun i => extractQuantityFromPsets api i spaceAreaNames)) (0, false)
  let t2 := if t1.2 then t1 else
    (api.getLineIDsWithType IFCSLAB).foldl
      (sumFoundStep (fun i => extractQuantityFromPsets api i slabAreaNames)) t1
  let t3 := if t2.2 then t2 else
    (api.getLineIDsWithType IFCSLAB).foldl
      (sumFoundStep (fun i => (computeBoundingBox api i).map
        (fun bb => (bb.maxX - bb.minX) * (bb.maxY - bb.minY)))) t2
  if t3.2 then some (round2 t3.1) else none

/-- The per-entity step of the total-volume section: resolver value when
available, otherwise that entity's bounding-box volume, otherwise no
contribution. -/
def volumeStep (api : IfcApi) (acc : ℚ × Bool) (i : Nat) : ℚ × Bool :=
  match extractQuantityFromPsets api i volumeNames with
  | some vol => (acc.1 + vol, true)
  | none =>
    match computeBoundingBox api i with
    | some bb =>
      (acc.1 + (bb.maxX - bb.minX) * (bb.maxY - bb.minY) * (bb.maxZ - bb.minZ), true)
    | none => acc

/-- The total-volume section of `parseIFCFile`: iterate the structural type
set, apply the per-entity step to every entity, round the total, or `null`
when no entity contributed. -/
def totalVolume (api : IfcApi) : Option ℚ :=
  let r := STRUCTURAL_TYPES.foldl
    (fun acc ty => (api.getLineIDsWithType ty).foldl (volumeStep api) acc)
    (0, false)
  if r.2 then some (round2 r.1) else none

/-- The per-vertex position baking of `extractIFCGeometry`: the same
element-by-element reading of the placement matrix as
`computeBoundingBox`, transcribed from the mesh-baking loop. -/
def bakeVertex (m : Mat16) (x y z : ℚ) : Vec3 :=
  ⟨m.m0 * x + m.m4 * y + m.m8 * z + m.m12,
   m.m1 * x + m.m5 * y + m.m9 * z + m.m13,
   m.m2 * x + m.m6 * y + m.m10 * z + m.m14⟩

/-- Baking all positions of one placed geometry (every sixth-slot vertex
of the interleaved buffer yields one world-space position). -/
def bakePositions (m : Mat16) (verts : List (Vec3 × Vec3)) : List Vec3 :=
  verts.map (fun v => bakeVertex m v.1.x v.1.y v.1.z)

/-- The identity placement matrix in the column-major element layout. -/
def identityMat : Mat16 :=
  ⟨1, 0, 0, 0, 0, 1, 0, 0, 0, 0, 1, 0, 0, 0, 0, 1⟩

/-- A pure translation by `(tx, ty, tz)` in the column-major element
layout (translation in elements 12..14). -/
def translationMat (tx ty tz : ℚ) : Mat16 :=
  ⟨1, 0, 0, 0, 0, 1, 0, 0, 0, 0, 1, 0, tx, ty, tz, 1⟩

/-- Following the spec's words (§4.2): `world = M * local` by the standard
4×4 homogeneous multiply with implicit `w = 1`, reading the matrix
column-major so that `M[0], M[4], M[8], M[12]` form the first output row,
`M[1], M[5], M[9], M[13]` the second and `M[2], M[6], M[10], M[14]` the
third. -/
def specHomogeneousTransform (m : Mat16) (p : Vec3) : Vec3 :=
  ⟨m.m0 * p.x + m.m4 * p.y + m.m8 * p.z + m.m12 * 1,
   m.m1 * p.x + m.m5 * p.y + m.m9 * p.z + m.m13 * 1,
   m.m2 * p.x + m.m6 * p.y + m.m10 * p.z + m.m14 * 1⟩

/-- Componentwise vector sum (used to state the translation property). -/
def vecAdd (a b : Vec3) : Vec3 := ⟨a.x + b.x, a.y + b.y, a.z + b.z⟩

/-- Scalar multiple of a vector. -/
def vecSmul (c : ℚ) (v : Vec3) : Vec3 := ⟨c * v.x, c * v.y, c * v.z⟩

/-- The primitive fields of the `orbitRef.current` snapshot object.  At
mount the viewer runs `orbitRef.current = { rotX, rotY, distance, target,
updateCamera }`, which copies the primitive values of the closure
variables into a fresh object: later writes to these object properties do
not reach the closure variables that `updateCamera` and the input
handlers read. -/
structure OrbitSnapshot where
  rotX : ℚ
  rotY : ℚ
  distance : ℚ
deriving DecidableEq

/-- The orbit camera state of the viewer (`rotX` is the pitch, `rotY` the
yaw).  `rotX`, `rotY` and `distance` are the lexical closure variables
read by `updateCamera` and the drag/pan/wheel handlers; `snapshot` is the
`orbitRef.current` object whose primitive fields are dead copies taken at
mount.  The `target` `THREE.Vector3` is one shared object referenced by
both the closure and the snapshot, so mutating it in place (via `.copy`)
is seen by `updateCamera` — it is therefore a single field here. -/
structure OrbitState where
  rotX : ℚ
  rotY : ℚ
  distance : ℚ
  snapshot : OrbitSnapshot
  target : Vec3
  position : Vec3
deriving DecidableEq

/-- The function `updateCamera` of the viewer: recompute the camera position from the
spherical state around the target, reading the lexical closure variables
`rotX`, `rotY`, `distance` and the shared `target`.  The host
trigonometric functions are abstracted as `sinF` and `cosF`. -/
def updateCamera (sinF cosF : ℚ → ℚ) (st : OrbitState) : OrbitState :=
  { st with position :=
      ⟨st.target.x + st.distance * sinF st.rotY * cosF st.rotX,
       st.target.y + st.distance * sinF st.rotX,
       st.target.z + st.distance * cosF st.rotY * cosF st.rotX⟩ }

/-- The helper `box.getCenter` of the model bounding box. -/
def boxCenter (bmin bmax : Vec3) : Vec3 :=
  ⟨(bmin.x + bmax.x) / 2, (bmin.y + bmax.y) / 2, (bmin.z + bmax.z) / 2⟩

/-- The helper `box.getSize` of the model bounding box. -/
def boxSize (bmin bmax : Vec3) : Vec3 :=
  ⟨bmax.x - bmin.x, bmax.y - bmin.y, bmax.z - bmin.z⟩

/-- The expression `Math.max(size.x, size.y, size.z)` — the largest box dimension. -/
def maxDim (bmin bmax : Vec3) : ℚ :=
  max (boxSize bmin bmax).x (max (boxSize bmin bmax).y (boxSize bmin bmax).z)

/-- The center-camera-on-model tail of the mesh effect: with positive
extent, `orbit.target.copy(center)` mutates the shared target vector (so
the recentering reaches `updateCamera`), but `orbit.distance = maxDim * 2`
writes only the `orbitRef.current` snapshot property — the closure
variable `distance` that the following `orbit.updateCamera()` reads is
left unchanged.  With zero extent the whole block is skipped. -/
def centerCameraOnModel (sinF cosF : ℚ → ℚ) (st : OrbitState)
    (bmin bmax : Vec3) : OrbitState :=
  if 0 < maxDim bmin bmax then
    updateCamera sinF cosF
      { st with target := boxCenter bmin bmax,
                snapshot := { st.snapshot with distance := maxDim bmin bmax * 2 } }
  else st

/-- Following the spec's words (§4.5): the unit direction of the camera
from its target for yaw/pitch angles. -/
def sphericalToCartesian (sinF cosF : ℚ → ℚ) (yaw pitch : ℚ) : Vec3 :=
  ⟨sinF yaw * cosF pitch, sinF pitch, cosF yaw * cosF pitch⟩

/-- Formatting `Number.prototype.toFixed(2)` on an exactly representable value:
round the magnitude half away from zero at two decimals and print with a
two-digit fraction. -/
def toFixed2 (q : ℚ) : String :=
  let n : ℤ := ⌊|q| * 100 + 1 / 2⌋
  let ip := n / 100
  let fp := n % 100
  (if q < 0 then ("-") else ("")) ++ toString ip ++ "." ++
    (if fp < 10 then ("0") ++ toString fp else toString fp)

/-- Squared Euclidean distance (`p1.distanceTo(p2)` is its square root,
computed by the host and abstracted as `sqrtF`). -/
def squaredDist (p q : Vec3) : ℚ :=
  (p.x - q.x) * (p.x - q.x) + (p.y - q.y) * (p.y - q.y) +
    (p.z - q.z) * (p.z - q.z)

/-- A persisted measurement group: the two endpoints of the line and the
text-sprite label. -/
structure MeasureMark where
  pointA : Vec3
  pointB : Vec3
  label : String
deriving DecidableEq

/-- The function `createMeasurementLine`: builds the persistent measurement group whose
label is the distance between the endpoints to two decimal places with the
meter suffix. -/
def createMeasurementLine (sqrtF : ℚ → ℚ) (p1 p2 : Vec3) : MeasureMark :=
  { pointA := p1, pointB := p2,
    label := toFixed2 (sqrtF (squaredDist p1 p2)) ++ " m" }

/-- The two-valued measurement mode of the viewer. -/
inductive MeasureMode where
  | off
  | picking
deriving DecidableEq

/-- The measurement-relevant state of the viewer: the mode, the pending
first point (`measurePointRef`), the preview marker
(`measurePreviewRef`), and the persisted measurement groups in the
scene. -/
structure MeasureState where
  mode : MeasureMode
  measurePoint : Option Vec3
  preview : Option Vec3
  marks : List MeasureMark
deriving DecidableEq

/-- The measurement `onClick` handler (active while the mode is
`picking`): `hit` is the closest ray intersection with the baked mesh
group, `none` when the ray misses (a no-op).  A first pick stores the
point and shows a preview marker; a second pick removes the preview,
appends a persistent measurement group and clears the pending point. -/
def onMeasureClick (sqrtF : ℚ → ℚ) (st : MeasureState) (hit : Option Vec3) :
    MeasureState :=
  match hit with
  | none => st
  | some point =>
    match st.measurePoint with
    | none => { st with measurePoint := some point, preview := some point }
    | some p1 =>
      { st with preview := none,
                marks := st.marks ++ [createMeasurementLine sqrtF p1 point],
                measurePoint := none }

/-- One storey record as built by the parser; the display name
(`Name?.value || default`) and the elevation (`Elevation?.value ?? 0`) are
dynamic values. -/
structure StoreyData where
  name : JSVal
  elevation : JSVal
  expressID : Nat
  elementIDs : List JSVal

/-- Map membership `elementToStorey.has(k)` — the runtime `Map` compares keys by
`SameValueZero`, modelled by `jsEq`. -/
def mapHas (m : List (JSVal × JSVal)) (k : JSVal) : Bool :=
  m.any (fun p => jsEq p.1 k)

/-- Map lookup `elementToStorey.get(k)` (`undefined` when absent). -/
def mapGet (m : List (JSVal × JSVal)) (k : JSVal) : JSVal :=
  match m.find? (fun p => jsEq p.1 k) with
  | some p => p.2
  | none => (.undef)

/-- Map update `elementToStorey.set(k, v)`. -/
def mapSet (m : List (JSVal × JSVal)) (k v : JSVal) : List (JSVal × JSVal) :=
  if mapHas m k then m.map (fun p => if jsEq p.1 k then (p.1, v) else p)
  else m ++ [(k, v)]

/-- Array push `storeyData.elementIDs.push(elID)`. -/
def pushElementID (elID : JSVal) (s : StoreyData) : StoreyData :=
  { s with elementIDs := s.elementIDs ++ [elID] }

/-- Apply `f` to the first storey satisfying `p` — the functional image of
mutating the object returned by `storeys.find`. -/
def updateFirst (p : StoreyData → Bool) (f : StoreyData → StoreyData) :
    List StoreyData → List StoreyData
  | [] => []
  | s :: rest => if p s then f s :: rest else s :: updateFirst p f rest

/-- Reference-to-id resolution used for `RelatingStructure`,
`RelatingObject` and `RelatedObjects` entries: `typeof ref === 'object' &&
ref?.value != null ? ref.value : (typeof ref === 'number' ? ref : null)`. -/
def relRefId (ref : JSVal) : JSVal :=
  if ref.isObjectType && !(JSVal.optChain ref ("value")).nullish then ref.getF ("value")
  else if ref.isNumber then ref
  else .jsNull

/-- Element-reference resolution of the containment pass, with its extra
`expressID` fallback case. -/
def elemRefId (elRef : JSVal) : JSVal :=
  if elRef.isObjectType && !(JSVal.optChain elRef ("value")).nullish then
    elRef.getF ("value")
  else if elRef.isNumber then elRef
  else if elRef.isObjectType && !(JSVal.optChain elRef ("expressID")).nullish then
    elRef.getF ("expressID")
  else .jsNull

/-- One recording step of the containment pass (`RelatedElements` loop
body): an element whose reference resolves is pushed into the relating
storey's `elementIDs` and written to the element-to-storey map —
unconditionally, there is no already-mapped check in this pass. -/
def containElemStep (sid : JSVal)
    (acc : List StoreyData × List (JSVal × JSVal)) (elRef : JSVal) :
    List StoreyData × List (JSVal × JSVal) :=
  let elID := elemRefId elRef
  if elID.nullish then acc
  else
    (updateFirst (fun s => jsEq sid (JSVal.num (s.expressID : ℚ)))
      (pushElementID elID) acc.1,
     mapSet acc.2 elID sid)

/-- Per-relation body of the containment pass, inside its `try`: resolve
the relating storey, then record every resolved related element in that
storey's `elementIDs` and in the element-to-storey map. -/
def containBody (api : IfcApi) (storeys : List StoreyData)
    (m : List (JSVal × JSVal)) (relID : Nat) :
    Except Unit (List StoreyData × List (JSVal × JSVal)) :=
  match api.getLine relID false with
  | .error e => .error e
  | .ok rel =>
    match rel.getFieldE ("RelatingStructure") with
    | .error e => .error e
    | .ok sref =>
      let sid := relRefId sref
      if sid.nullish then .ok (storeys, m)
      else
        match storeys.find? (fun s => jsEq sid (JSVal.num (s.expressID : ℚ))) with
        | none => .ok (storeys, m)
        | some _ =>
          match rel.getFieldE ("RelatedElements") with
          | .error e => .error e
          | .ok relElems =>
            if relElems.truthy then
              match relElems.iterateE with
              | .error e => .error e
              | .ok elems => .ok (elems.foldl (containElemStep sid) (storeys, m))
            else .ok (storeys, m)

/-- One containment relation processed under its `try`/`catch`: a throw
leaves the state unchanged and continues. -/
def containStep (api : IfcApi)
    (st : List StoreyData × List (JSVal × JSVal)) (relID : Nat) :
    List StoreyData × List (JSVal × JSVal) :=
  match containBody api st.1 st.2 relID with
  | .ok st2 => st2
  | .error _ => st

/-- The containment pass over all `IfcRelContainedInSpatialStructure`
relations. -/
def containmentPass (api : IfcApi) (storeys : List StoreyData)
    (m : List (JSVal × JSVal)) : List StoreyData × List (JSVal × JSVal) :=
  (api.getLineIDsWithType IFCRELCONTAINEDINSPATIALSTRUCTURE).foldl
    (containStep api) (storeys, m)

/-- One attachment step of the aggregation pass: attach the object to the
target storey only when its id resolved and it is not yet mapped. -/
def aggObjStep (tsid : Nat)
    (acc : List StoreyData × List (JSVal × JSVal)) (objRef : JSVal) :
    List StoreyData × List (JSVal × JSVal) :=
  let objID := relRefId objRef
  if !objID.nullish && !(mapHas acc.2 objID) then
    (updateFirst (fun s => s.expressID == tsid) (pushElementID objID) acc.1,
     mapSet acc.2 objID (JSVal.num (tsid : ℚ)))
  else acc

/-- Per-relation body of the aggregation pass, inside its `try`: the
target storey is the parent itself when the parent is a storey, otherwise
the storey the parent is already mapped to; every not-yet-mapped child is
attached to it. -/
def aggBody (api : IfcApi) (storeys : List StoreyData)
    (m : List (JSVal × JSVal)) (aggID : Nat) :
    Except Unit (List StoreyData × List (JSVal × JSVal)) :=
  match api.getLine aggID false with
  | .error e => .error e
  | .ok rel =>
    match rel.getFieldE ("RelatingObject") with
    | .error e => .error e
    | .ok pref =>
      let parentID := relRefId pref
      if parentID.nullish then .ok (storeys, m)
      else
        let storeyData :=
          storeys.find? (fun s => jsEq parentID (JSVal.num (s.expressID : ℚ)))
        if storeyData.isNone && !(mapHas m parentID) then .ok (storeys, m)
        else
          match (match storeyData with
                 | some s => some s
                 | none => storeys.find?
                     (fun s => jsEq (JSVal.num (s.expressID : ℚ)) (mapGet m parentID))) with
          | none => .ok (storeys, m)
          | some t =>
            match rel.getFieldE ("RelatedObjects") with
            | .error e => .error e
            | .ok relObjs =>
              if relObjs.truthy then
                match relObjs.iterateE with
                | .error e => .error e
                | .ok objs => .ok (objs.foldl (aggObjStep t.expressID) (storeys, m))
              else .ok (storeys, m)

/-- One aggregation relation processed under its `try`/`catch`. -/
def aggStep (api : IfcApi)
    (st : List StoreyData × List (JSVal × JSVal)) (aggID : Nat) :
    List StoreyData × List (JSVal × JSVal) :=
  match aggBody api st.1 st.2 aggID with
  | .ok st2 => st2
  | .error _ => st

/-- The aggregation pass over all `IfcRelAggregates` relations. -/
def aggregationPass (api : IfcApi) (storeys : List StoreyData)
    (m : List (JSVal × JSVal)) : List StoreyData × List (JSVal × JSVal) :=
  (api.getLineIDsWithType IFCRELAGGREGATES).foldl (aggStep api) (storeys, m)

/-- The storey-discovery loop: decode each enumerated storey id into a
`StoreyData`; a decoder throw aborts the whole storey section (flag
`true`), keeping only the storeys discovered so far. -/
def discoverLoop (api : IfcApi) :
    List Nat → Nat → List StoreyData → List StoreyData × Bool
  | [], _, acc => (acc, false)
  | sid :: rest, i, acc =>
    match api.getLine sid false with
    | .error _ => (acc, true)
    | .ok storey =>
      match storey.getFieldE ("Name") with
      | .error _ => (acc, true)
      | .ok nameF =>
        match storey.getFieldE ("Elevation") with
        | .error _ => (acc, true)
        | .ok elevF =>
          discoverLoop api rest (i + 1) (acc ++
            [{ name := JSVal.orElse (optValueOf nameF)
                 (.str ("Storey " ++ toString (i + 1))),
               elevation := JSVal.coalesce (optValueOf elevF) (.num 0),
               expressID := sid, elementIDs := [] }])

/-- Numeric view of a storey elevation, as consumed by the sort comparator
`(a, b) => a.elevation - b.elevation`.  For non-numeric elevations the
comparator returns `NaN` and the ECMAScript sort order is
implementation-defined; the model assigns such storeys elevation `0`, and
the ordering claims are settled under a numeric-elevation hypothesis where
model and runtime agree. -/
def elevNum (s : StoreyData) : ℚ :=
  match s.elevation with
  | .num q => q
  | _ => 0

/-- The comparator order of the storey sort. -/
def storeyLe (a b : StoreyData) : Prop := elevNum a ≤ elevNum b

instance : DecidableRel storeyLe :=
  fun a b => inferInstanceAs (Decidable (elevNum a ≤ elevNum b))

instance : IsTotal StoreyData storeyLe :=
  ⟨fun a b => le_total (elevNum a) (elevNum b)⟩

instance : IsTrans StoreyData storeyLe :=
  ⟨fun _ _ _ hab hbc => le_trans hab hbc⟩

/-- The sort `storeys.sort((a, b) => a.elevation - b.elevation)`: the ECMAScript
sort is required to be stable, and for a consistent comparator every
stable sort produces the same list, so the model may use insertion
sort. -/
def sortStoreys (l : List StoreyData) : List StoreyData :=
  List.insertionSort storeyLe l

/-- The storey section of `parseIFCFile`: discover storeys, sort them by
elevation, then run the containment and the aggregation pass.  One big
`try` wraps the section, so a throw during discovery keeps the storeys
discovered so far — unsorted and with no element assignment. -/
def storeySection (api : IfcApi) : List StoreyData :=
  let d := discoverLoop api (api.getLineIDsWithType IFCBUILDINGSTOREY) 0 []
  if d.2 then d.1
  else
    let sorted := sortStoreys d.1
    let c := containmentPass api sorted []
    (aggregationPass api c.1 c.2).1

/-- RGBA color of a baked mesh. -/
structure MeshColor where
  r : ℚ
  g : ℚ
  b : ℚ
  a : ℚ
deriving DecidableEq

/-- One baked render mesh (`IFCMeshData`): the element back-reference and
the flattened world-space buffers. -/
structure MeshData where
  expressID : Nat
  vertices : List ℚ
  indices : List Nat
  color : MeshColor
deriving DecidableEq

/-- The `filteredMeshes` memo of the Index page.  `buildingData` is
represented by its `storeys` list — the only field the filter reads; the
`!selectedStoreyID` guard treats both `null` and `0` as no selection, and
set membership (`SameValueZero` on a numeric `expressID`) is `jsEq`
against the numeric value. -/
def filteredMeshes (selectedStoreyID : Option ℚ)
    (buildingData : Option (List StoreyData)) (allMeshes : List MeshData) :
    List MeshData :=
  match selectedStoreyID with
  | none => allMeshes
  | some sel =>
    if sel == 0 then allMeshes
    else
      match buildingData with
      | none => allMeshes
      | some storeys =>
        match storeys.find? (fun s => (s.expressID : ℚ) == sel) with
        | none => allMeshes
        | some storey =>
          allMeshes.filter (fun mm =>
            storey.elementIDs.any (fun v => jsEq v (JSVal.num (mm.expressID : ℚ))))

/-- A decoder on which every record lookup throws. -/
def failApi : IfcApi where
  getLineIDsWithType := fun _ => []
  getLine := fun _ _ => .error ()
  getFlatMesh := fun _ => .error ()

/-- The resolver values of tier 1 of the gross-floor-area chain: one
entry per space entity whose area resolved. -/
def spaceAreaVals (api : IfcApi) : List ℚ :=
  (api.getLineIDsWithType IFCSPACE).filterMap
    (fun i => extractQuantityFromPsets api i spaceAreaNames)

/-- The resolver values of tier 2: one entry per slab entity whose area
resolved from its property sets. -/
def slabAreaVals (api : IfcApi) : List ℚ :=
  (api.getLineIDsWithType IFCSLAB).filterMap
    (fun i => extractQuantityFromPsets api i slabAreaNames)

/-- The values of tier 3: one bounding-box XY area per slab entity with a
computable bounding box. -/
def slabBBoxAreas (api : IfcApi) : List ℚ :=
  (api.getLineIDsWithType IFCSLAB).filterMap
    (fun i => (computeBoundingBox api i).map
      (fun bb => (bb.maxX - bb.minX) * (bb.maxY - bb.minY)))

/-- The per-entity contribution of the total-volume section: the resolver
value when present, otherwise that entity's bounding-box volume, otherwise
nothing. -/
def volumeContrib (api : IfcApi) (i : Nat) : Option ℚ :=
  match extractQuantityFromPsets api i volumeNames with
  | some vol => some vol
  | none => (computeBoundingBox api i).map
      (fun bb => (bb.maxX - bb.minX) * (bb.maxY - bb.minY) * (bb.maxZ - bb.minZ))

/-- All per-entity volume contributions across the structural type set, in
iteration order. -/
def structuralVolumeVals (api : IfcApi) : List ℚ :=
  ((STRUCTURAL_TYPES.map api.getLineIDsWithType).flatten).filterMap (volumeContrib api)

/-- A measurement state with a pending first pick at the origin. -/
def measureStart : MeasureState :=
  { mode := .picking, measurePoint := some ⟨0, 0, 0⟩,
    preview := some ⟨0, 0, 0⟩, marks := [] }

/-- The identity of a storey apart from its `elementIDs`: the two passes
only ever push element ids, so this triple is invariant under them. -/
def storeyKey (s : StoreyData) : JSVal × JSVal × Nat :=
  (s.name, s.elevation, s.expressID)

/-- The number of occurrences of the numeric id `e` in an `elementIDs`
list. -/
def countE (e : ℚ) (l : List JSVal) : Nat :=
  (l.filter (fun v => jsEq v (JSVal.num e))).length

/-- The numeric elevation read off a storey key (mirrors `elevNum`). -/
def keyElev (k : JSVal × JSVal × Nat) : ℚ :=
  match k.2.1 with
  | .num q => q
  | _ => 0

/-- The storeys discovered by the storey-discovery loop, in discovery
order. -/
def discoveredStoreys (api : IfcApi) : List StoreyData :=
  (discoverLoop api (api.getLineIDsWithType IFCBUILDINGSTOREY) 0 []).1

/-- A concrete model with two storeys and two containment relations that
both reference element `100`. -/
def cApi1 : IfcApi where
  getLineIDsWithType := fun t =>
    if t = IFCBUILDINGSTOREY then [10, 20]
    else if t = IFCRELCONTAINEDINSPATIALSTRUCTURE then [1, 2]
    else []
  getLine := fun id _ =>
    if id = 10 then .ok (.obj [])
    else if id = 20 then .ok (.obj [])
    else if id = 1 then .ok (.obj
      [("RelatingStructure", .obj [("value", .num 10)]),
       ("RelatedElements", .arr [.obj [("value", .num 100)]])])
    else if id = 2 then .ok (.obj
      [("RelatingStructure", .obj [("value", .num 20)]),
       ("RelatedElements", .arr [.obj [("value", .num 100)]])])
    else .error ()
  getFlatMesh := fun _ => .error ()

/-- A concrete model with one aggregation relation placing elements `7`
and `8` under storey `50`. -/
def cApiAgg : IfcApi where
  getLineIDsWithType := fun t => if t = IFCRELAGGREGATES then [3] else []
  getLine := fun id _ =>
    if id = 3 then .ok (.obj
      [("RelatingObject", .obj [("value", .num 50)]),
       ("RelatedObjects", .arr [.obj [("value", .num 7)], .obj [("value", .num 8)]])])
    else .error ()
  getFlatMesh := fun _ => .error ()

/-- A single storey `50` with no elements yet. -/
def aggStoreys : List StoreyData :=
  [{ name := .str ("S"), elevation := .num 0, expressID := 50, elementIDs := [] }]

/-- An element-to-storey map in which element `7` is already mapped. -/
def aggMap : List (JSVal × JSVal) := [(.num 7, .num 50)]

/-- A concrete model whose storey enumeration yields elevations `5`, `3`
and then a record whose decode throws. -/
def cApi7 : IfcApi where
  getLineIDsWithType := fun t => if t = IFCBUILDINGSTOREY then [31, 32, 33] else []
  getLine := fun id _ =>
    if id = 31 then .ok (.obj [("Elevation", .obj [("value", .num 5)])])
    else if id = 32 then .ok (.obj [("Elevation", .obj [("value", .num 3)])])
    else .error ()
  getFlatMesh := fun _ => .error ()

/-- A concrete model with two storeys at elevations `1` and `2` that
decode cleanly. -/
def cApiW7 : IfcApi where
  getLineIDsWithType := fun t => if t = IFCBUILDINGSTOREY then [41, 42] else []
  getLine := fun id _ =>
    if id = 41 then .ok (.obj [("Elevation", .obj [("value", .num 1)])])
    else if id = 42 then .ok (.obj [("Elevation", .obj [("value", .num 2)])])
    else .error ()
  getFlatMesh := fun _ => .error ()

/-- An orbit camera state before any model is loaded: the closure
distance holds its initial value `50` and the snapshot carries the copies
taken at mount. -/
def orbitStart : OrbitState :=
  { rotX := 0, rotY := 0, distance := 50,
    snapshot := { rotX := 0, rotY := 0, distance := 50 },
    target := ⟨0, 0, 0⟩, position := ⟨0, 0, 0⟩ }

/-- A storey with an empty `elementIDs` set. -/
def storeyEmpty : StoreyData :=
  { name := .str ("S"), elevation := .num 0, expressID := 9, elementIDs := [] }

/-- A baked mesh whose element id is `100`. -/
def mesh1 : MeshData :=
  { expressID := 100, vertices := [], indices := [], color := ⟨1, 1, 1, 1⟩ }

/-- Folding the accumulate-and-mark step computes the sum of the resolved
values and whether any id resolved. -/
theorem foldl_sumFoundStep (g : Nat → Option ℚ) (ids : List Nat) (t0 : ℚ) (b0 : Bool) :
    ids.foldl (sumFoundStep g) (t0, b0) =
      (t0 + (ids.filterMap g).sum, b0 || !(ids.filterMap g).isEmpty) := by
  induction ids generalizing t0 b0 with
  | nil => simp
  | cons i rest ih =>
    cases hg : g i with
    | none => simp [sumFoundStep, hg, ih]
    | some a => simp [sumFoundStep, hg, ih, add_assoc]

/-- Emptiness of an appended list. -/
theorem isEmpty_append_eq {A : Type} (l1 l2 : List A) :
    (l1 ++ l2).isEmpty = (l1.isEmpty && l2.isEmpty) := by
  cases l1 <;> simp

/-- The nested per-type/per-id fold of the volume section equals one fold
over the concatenated id lists. -/
theorem foldl_sumFoundStep_nested (g : Nat → Option ℚ) (idsOf : Nat → List Nat)
    (types : List Nat) (t0 : ℚ) (b0 : Bool) :
    types.foldl (fun acc ty => (idsOf ty).foldl (sumFoundStep g) acc) (t0, b0) =
      (t0 + (((types.map idsOf).flatten).filterMap g).sum,
       b0 || !(((types.map idsOf).flatten).filterMap g).isEmpty) := by
  induction types generalizing t0 b0 with
  | nil => simp
  | cons ty rest ih =>
    simp only [List.foldl_cons, foldl_sumFoundStep, ih, List.map_cons,
      List.flatten_cons, List.filterMap_append, List.sum_append, Prod.mk.injEq]
    have hb : ∀ a b c : Bool, ((a || !b) || !c) = (a || !(b && c)) := by decide
    constructor
    · ring
    · rw [isEmpty_append_eq]
      exact hb b0 _ _

/-- Strict equality against a numeric literal holds exactly on that
number. -/
theorem jsEq_num_iff (v : JSVal) (q : ℚ) :
    jsEq v (JSVal.num q) = true ↔ v = JSVal.num q := by
  cases v <;> simp [jsEq]

/-- Pushing an element id leaves the storey key unchanged. -/
theorem storeyKey_pushElementID (e : JSVal) (s : StoreyData) :
    storeyKey (pushElementID e s) = storeyKey s := rfl

/-- Updating one storey with a key-preserving function preserves all
storey keys. -/
theorem updateFirst_map_key (p : StoreyData → Bool) (f : StoreyData → StoreyData)
    (hf : ∀ s, storeyKey (f s) = storeyKey s) (l : List StoreyData) :
    (updateFirst p f l).map storeyKey = l.map storeyKey := by
  induction l with
  | nil => rfl
  | cons s rest ih =>
    cases hp : p s <;> simp [updateFirst, hp, hf, ih]

/-- One containment recording step preserves storey keys. -/
theorem containElemStep_key (sid : JSVal)
    (acc : List StoreyData × List (JSVal × JSVal)) (elRef : JSVal) :
    (containElemStep sid acc elRef).1.map storeyKey = acc.1.map storeyKey := by
  unfold containElemStep
  cases h : (elemRefId elRef).nullish with
  | true => simp [h]
  | false =>
    simp only [h, Bool.false_eq_true, if_false]
    exact updateFirst_map_key _ (pushElementID (elemRefId elRef)) (fun s => rfl) acc.1

/-- The containment element loop preserves storey keys. -/
theorem foldl_containElemStep_key (sid : JSVal) (elems : List JSVal)
    (acc : List StoreyData × List (JSVal × JSVal)) :
    ((elems.foldl (containElemStep sid) acc).1.map storeyKey) = acc.1.map storeyKey := by
  induction elems generalizing acc with
  | nil => rfl
  | cons e rest ih => rw [List.foldl_cons, ih, containElemStep_key]

/-- One aggregation attachment step preserves storey keys. -/
theorem aggObjStep_key (tsid : Nat)
    (acc : List StoreyData × List (JSVal × JSVal)) (objRef : JSVal) :
    (aggObjStep tsid acc objRef).1.map storeyKey = acc.1.map storeyKey := by
  unfold aggObjStep
  cases h : (!(relRefId objRef).nullish && !mapHas acc.2 (relRefId objRef)) with
  | false => simp [h]
  | true =>
    simp only [h, if_true]
    exact updateFirst_map_key _ (pushElementID (relRefId objRef)) (fun s => rfl) acc.1

/-- The aggregation object loop preserves storey keys. -/
theorem foldl_aggObjStep_key (tsid : Nat) (objs : List JSVal)
    (acc : List StoreyData × List (JSVal × JSVal)) :
    ((objs.foldl (aggObjStep tsid) acc).1.map storeyKey) = acc.1.map storeyKey := by
  induction objs generalizing acc with
  | nil => rfl
  | cons o rest ih => rw [List.foldl_cons, ih, aggObjStep_key]

/-- A successful containment relation body preserves storey keys. -/
theorem containBody_key (api : IfcApi) (storeys : List StoreyData)
    (m : List (JSVal × JSVal)) (relID : Nat)
    (st2 : List StoreyData × List (JSVal × JSVal))
    (h : containBody api storeys m relID = .ok st2) :
    st2.1.map storeyKey = storeys.map storeyKey := by
  unfold containBody at h
  rcases hg : api.getLine relID false with e | rel <;> rw [hg] at h
  · cases h
  rcases hf : rel.getFieldE ("RelatingStructure") with e | sref <;>
    simp only [hf] at h
  · cases h
  by_cases hn : (relRefId sref).nullish = true
  · rw [if_pos hn] at h
    cases h; rfl
  rw [if_neg hn] at h
  rcases hfind : storeys.find? (fun s => jsEq (relRefId sref) (JSVal.num (s.expressID : ℚ)))
      with _ | sd <;> simp only [hfind] at h
  · cases h; rfl
  rcases hre : rel.getFieldE ("RelatedElements") with e | relElems <;>
    simp only [hre] at h
  · cases h
  by_cases ht : relElems.truthy = true
  · rw [if_pos ht] at h
    rcases hit : relElems.iterateE with e | elems <;> simp only [hit] at h
    · cases h
    · cases h
      exact foldl_containElemStep_key _ _ _
  · rw [if_neg ht] at h
    cases h; rfl

/-- A containment relation step (with its catch) preserves storey keys. -/
theorem containStep_key (api : IfcApi)
    (st : List StoreyData × List (JSVal × JSVal)) (relID : Nat) :
    (containStep api st relID).1.map storeyKey = st.1.map storeyKey := by
  unfold containStep
  cases h : containBody api st.1 st.2 relID with
  | ok st2 => simpa using containBody_key api st.1 st.2 relID st2 h
  | error e => rfl

/-- The whole containment pass preserves storey keys. -/
theorem containmentPass_key (api : IfcApi) (storeys : List StoreyData)
    (m : List (JSVal × JSVal)) :
    (containmentPass api storeys m).1.map storeyKey = storeys.map storeyKey := by
  unfold containmentPass
  generalize api.getLineIDsWithType IFCRELCONTAINEDINSPATIALSTRUCTURE = ids
  suffices hgen : ∀ (ids : List Nat) (st : List StoreyData × List (JSVal × JSVal)),
      ((ids.foldl (containStep api) st).1.map storeyKey) = st.1.map storeyKey by
    exact hgen ids (storeys, m)
  intro ids
  induction ids with
  | nil => intro st; rfl
  | cons i rest ih => intro st; rw [List.foldl_cons, ih, containStep_key]

/-- A successful aggregation relation body preserves storey keys. -/
theorem aggBody_key (api : IfcApi) (storeys : List StoreyData)
    (m : List (JSVal × JSVal)) (aggID : Nat)
    (st2 : List StoreyData × List (JSVal × JSVal))
    (h : aggBody api storeys m aggID = .ok st2) :
    st2.1.map storeyKey = storeys.map storeyKey := by
  unfold aggBody at h
  rcases hg : api.getLine aggID false with e | rel <;> rw [hg] at h
  · cases h
  rcases hf : rel.getFieldE ("RelatingObject") with e | pref <;>
    simp only [hf] at h
  · cases h
  by_cases hn : (relRefId pref).nullish = true
  · rw [if_pos hn] at h
    cases h; rfl
  rw [if_neg hn] at h
  by_cases hskip : ((storeys.find? (fun s => jsEq (relRefId pref) (JSVal.num (s.expressID : ℚ)))).isNone
      && !mapHas m (relRefId pref)) = true
  · rw [if_pos hskip] at h
    cases h; rfl
  rw [if_neg hskip] at h
  rcases htgt : (match storeys.find? (fun s => jsEq (relRefId pref) (JSVal.num (s.expressID : ℚ))) with
      | some s => some s
      | none => storeys.find? (fun s => jsEq (JSVal.num (s.expressID : ℚ)) (mapGet m (relRefId pref))))
      with _ | t <;> simp only [htgt] at h
  · cases h; rfl
  rcases hre : rel.getFieldE ("RelatedObjects") with e | relObjs <;>
    simp only [hre] at h
  · cases h
  by_cases ht : relObjs.truthy = true
  · rw [if_pos ht] at h
    rcases hit : relObjs.iterateE with e | objs <;> simp only [hit] at h
    · cases h
    · cases h
      exact foldl_aggObjStep_key _ _ _
  · rw [if_neg ht] at h
    cases h; rfl

/-- An aggregation relation step (with its catch) preserves storey keys. -/
theorem aggStep_key (api : IfcApi)
    (st : List StoreyData × List (JSVal × JSVal)) (aggID : Nat) :
    (aggStep api st aggID).1.map storeyKey = st.1.map storeyKey := by
  unfold aggStep
  cases h : aggBody api st.1 st.2 aggID with
  | ok st2 => simpa using aggBody_key api st.1 st.2 aggID st2 h
  | error e => rfl

/-- The whole aggregation pass preserves storey keys. -/
theorem aggregationPass_key (api : IfcApi) (storeys : List StoreyData)
    (m : List (JSVal × JSVal)) :
    (aggregationPass api storeys m).1.map storeyKey = storeys.map storeyKey := by
  unfold aggregationPass
  generalize api.getLineIDsWithType IFCRELAGGREGATES = ids
  suffices hgen : ∀ (ids : List Nat) (st : List StoreyData × List (JSVal × JSVal)),
      ((ids.foldl (aggStep api) st).1.map storeyKey) = st.1.map storeyKey by
    exact hgen ids (storeys, m)
  intro ids
  induction ids with
  | nil => intro st; rfl
  | cons i rest ih => intro st; rw [List.foldl_cons, ih, aggStep_key]

/-- Map insertion never removes a present key. -/
theorem mapHas_mapSet_mono (m : List (JSVal × JSVal)) (k v x : JSVal)
    (h : mapHas m x = true) : mapHas (mapSet m k v) x = true := by
  unfold mapSet
  by_cases hk : mapHas m k = true
  · rw [if_pos hk]
    unfold mapHas at h ⊢
    rw [List.any_map]
    have hfun : ((fun p => jsEq p.1 x) ∘ fun p => if jsEq p.1 k = true then (p.1, v) else p) =
        fun p : JSVal × JSVal => jsEq p.1 x := by
      funext q
      cases hq : jsEq q.1 k <;> simp [hq]
    rw [hfun]
    exact h
  · rw [if_neg hk]
    unfold mapHas at h ⊢
    rw [List.any_append]
    simp [h]

/-- Pushing a different element id does not change the count of `e`. -/
theorem countE_push_ne (e : ℚ) (elID : JSVal)
    (hne : jsEq elID (JSVal.num e) = false) (s : StoreyData) :
    countE e (pushElementID elID s).elementIDs = countE e s.elementIDs := by
  unfold countE pushElementID
  simp [List.filter_append, hne]

/-- Updating one storey with a count-preserving function preserves all
per-storey counts of `e`. -/
theorem updateFirst_map_countE (e : ℚ) (p : StoreyData → Bool)
    (f : StoreyData → StoreyData)
    (hf : ∀ s, countE e (f s).elementIDs = countE e s.elementIDs)
    (l : List StoreyData) :
    (updateFirst p f l).map (fun s => countE e s.elementIDs) =
      l.map (fun s => countE e s.elementIDs) := by
  induction l with
  | nil => rfl
  | cons s rest ih =>
    cases hp : p s <;> simp [updateFirst, hp, hf, ih]

/-- An attachment step keeps a mapped id mapped and adds no occurrence of
it to any storey. -/
theorem aggObjStep_count (e : ℚ) (tsid : Nat)
    (acc : List StoreyData × List (JSVal × JSVal)) (objRef : JSVal)
    (h : mapHas acc.2 (JSVal.num e) = true) :
    mapHas (aggObjStep tsid acc objRef).2 (JSVal.num e) = true ∧
    (aggObjStep tsid acc objRef).1.map (fun s => countE e s.elementIDs) =
      acc.1.map (fun s => countE e s.elementIDs) := by
  unfold aggObjStep
  cases hc : (!(relRefId objRef).nullish && !mapHas acc.2 (relRefId objRef)) with
  | false => simp [hc, h]
  | true =>
    simp only [Bool.and_eq_true, Bool.not_eq_true'] at hc
    have hne : jsEq (relRefId objRef) (JSVal.num e) = false := by
      cases hj : jsEq (relRefId objRef) (JSVal.num e) with
      | false => rfl
      | true =>
        exfalso
        have heq := (jsEq_num_iff _ _).1 hj
        rw [heq] at hc
        rw [hc.2] at h
        cases h
    have hc2 : (!(relRefId objRef).nullish && !mapHas acc.2 (relRefId objRef)) = true := by
      simp [hc.1, hc.2]
    simp only [hc2, if_true]
    refine ⟨mapHas_mapSet_mono _ _ _ _ h, ?_⟩
    exact updateFirst_map_countE e _ (pushElementID (relRefId objRef))
      (fun s => countE_push_ne e _ hne s) acc.1

/-- The aggregation object loop keeps a mapped id mapped and adds no
occurrence of it. -/
theorem foldl_aggObjStep_count (e : ℚ) (tsid : Nat) (objs : List JSVal)
    (acc : List StoreyData × List (JSVal × JSVal))
    (h : mapHas acc.2 (JSVal.num e) = true) :
    mapHas (objs.foldl (aggObjStep tsid) acc).2 (JSVal.num e) = true ∧
    (objs.foldl (aggObjStep tsid) acc).1.map (fun s => countE e s.elementIDs) =
      acc.1.map (fun s => countE e s.elementIDs) := by
  induction objs generalizing acc with
  | nil => exact ⟨h, rfl⟩
  | cons o rest ih =>
    rw [List.foldl_cons]
    have hstep := aggObjStep_count e tsid acc o h
    have hrest := ih (aggObjStep tsid acc o) hstep.1
    exact ⟨hrest.1, hrest.2.trans hstep.2⟩

/-- A successful aggregation body keeps a mapped id mapped and adds no
occurrence of it. -/
theorem aggBody_count (e : ℚ) (api : IfcApi) (storeys : List StoreyData)
    (m : List (JSVal × JSVal)) (aggID : Nat)
    (st2 : List StoreyData × List (JSVal × JSVal))
    (h : aggBody api storeys m aggID = .ok st2)
    (hm : mapHas m (JSVal.num e) = true) :
    mapHas st2.2 (JSVal.num e) = true ∧
    st2.1.map (fun s => countE e s.elementIDs) =
      storeys.map (fun s => countE e s.elementIDs) := by
  unfold aggBody at h
  rcases hg : api.getLine aggID false with u | rel <;> rw [hg] at h
  · cases h
  rcases hf : rel.getFieldE ("RelatingObject") with u | pref <;>
    simp only [hf] at h
  · cases h
  by_cases hn : (relRefId pref).nullish = true
  · rw [if_pos hn] at h
    cases h; exact ⟨hm, rfl⟩
  rw [if_neg hn] at h
  by_cases hskip : ((storeys.find? (fun s => jsEq (relRefId pref) (JSVal.num (s.expressID : ℚ)))).isNone
      && !mapHas m (relRefId pref)) = true
  · rw [if_pos hskip] at h
    cases h; exact ⟨hm, rfl⟩
  rw [if_neg hskip] at h
  rcases htgt : (match storeys.find? (fun s => jsEq (relRefId pref) (JSVal.num (s.expressID : ℚ))) with
      | some s => some s
      | none => storeys.find? (fun s => jsEq (JSVal.num (s.expressID : ℚ)) (mapGet m (relRefId pref))))
      with _ | t <;> simp only [htgt] at h
  · cases h; exact ⟨hm, rfl⟩
  rcases hre : rel.getFieldE ("RelatedObjects") with u | relObjs <;>
    simp only [hre] at h
  · cases h
  by_cases ht : relObjs.truthy = true
  · rw [if_pos ht] at h
    rcases hit : relObjs.iterateE with u | objs <;> simp only [hit] at h
    · cases h
    · cases h
      exact foldl_aggObjStep_count e t.expressID objs (storeys, m) hm
  · rw [if_neg ht] at h
    cases h; exact ⟨hm, rfl⟩

/-- An aggregation step keeps a mapped id mapped and adds no occurrence
of it. -/
theorem aggStep_count (e : ℚ) (api : IfcApi)
    (st : List StoreyData × List (JSVal × JSVal)) (aggID : Nat)
    (h : mapHas st.2 (JSVal.num e) = true) :
    mapHas (aggStep api st aggID).2 (JSVal.num e) = true ∧
    (aggStep api st aggID).1.map (fun s => countE e s.elementIDs) =
      st.1.map (fun s => countE e s.elementIDs) := by
  unfold aggStep
  cases hb : aggBody api st.1 st.2 aggID with
  | ok st2 => simpa using aggBody_count e api st.1 st.2 aggID st2 hb h
  | error u => exact ⟨h, rfl⟩

/-- The whole aggregation pass keeps a mapped id mapped and adds no
occurrence of it to any storey. -/
theorem aggregationPass_count (e : ℚ) (api : IfcApi)
    (storeys : List StoreyData) (m : List (JSVal × JSVal))
    (h : mapHas m (JSVal.num e) = true) :
    mapHas (aggregationPass api storeys m).2 (JSVal.num e) = true ∧
    (aggregationPass api storeys m).1.map (fun s => countE e s.elementIDs) =
      storeys.map (fun s => countE e s.elementIDs) := by
  unfold aggregationPass
  generalize api.getLineIDsWithType IFCRELAGGREGATES = ids
  induction ids generalizing storeys m with
  | nil => exact ⟨h, rfl⟩
  | cons i rest ih =>
    rw [List.foldl_cons]
    have hstep := aggStep_count e api (storeys, m) i h
    have hrest := ih (aggStep api (storeys, m) i).1 (aggStep api (storeys, m) i).2 hstep.1
    constructor
    · exact hrest.1
    · exact hrest.2.trans hstep.2

/-- Ordered insertion is stable: filtering at one elevation keeps the
inserted element in front exactly when it has that elevation. -/
theorem filter_orderedInsert_elev (q : ℚ) (x : StoreyData) (l : List StoreyData) :
    (List.orderedInsert storeyLe x l).filter (fun s => elevNum s == q) =
      if elevNum x == q then x :: l.filter (fun s => elevNum s == q)
      else l.filter (fun s => elevNum s == q) := by
  induction l with
  | nil =>
    cases hpx : (elevNum x == q) <;> simp [List.orderedInsert, List.filter_cons, hpx]
  | cons b rest ih =>
    by_cases hle : storeyLe x b
    · cases hpx : (elevNum x == q) <;>
        simp [List.orderedInsert, hle, List.filter_cons, hpx]
    · cases hpx : (elevNum x == q) with
      | true =>
        have hlt : elevNum b < elevNum x := lt_of_not_le hle
        have hxq : elevNum x = q := by simpa using hpx
        have hpb : (elevNum b == q) = false := by
          simp only [beq_eq_false_iff_ne]
          exact ne_of_lt (hxq ▸ hlt)
        simp [List.orderedInsert, hle, List.filter_cons, hpb, ih, hpx]
      | false =>
        cases hpb : (elevNum b == q) <;>
          simp [List.orderedInsert, hle, List.filter_cons, hpb, ih, hpx]

/-- Stability of the storey sort: the sublist at any fixed elevation is
unchanged by sorting. -/
theorem filter_sortStoreys_elev (q : ℚ) (l : List StoreyData) :
    (sortStoreys l).filter (fun s => elevNum s == q) =
      l.filter (fun s => elevNum s == q) := by
  unfold sortStoreys
  induction l with
  | nil => rfl
  | cons x rest ih =>
    simp only [List.insertionSort]
    rw [filter_orderedInsert_elev, ih]
    cases hpx : (elevNum x == q) <;> simp [List.filter_cons, hpx]

/-- Sortedness by elevation transfers along equality of the storey-key
lists. -/
theorem sorted_of_map_key_eq (l1 l2 : List StoreyData)
    (h : l1.map storeyKey = l2.map storeyKey)
    (hs : List.Sorted storeyLe l1) : List.Sorted storeyLe l2 := by
  induction l1 generalizing l2 with
  | nil =>
    cases l2 with
    | nil => exact List.Pairwise.nil
    | cons b bs => simp at h
  | cons a as ih =>
    cases l2 with
    | nil => simp at h
    | cons b bs =>
      simp only [List.map_cons, List.cons.injEq] at h
      rw [List.sorted_cons] at hs ⊢
      constructor
      · intro c hc
        have hck : storeyKey c ∈ bs.map storeyKey := List.mem_map_of_mem storeyKey hc
        rw [← h.2] at hck
        rcases List.mem_map.1 hck with ⟨a2, ha2, hk⟩
        have h1 : elevNum a ≤ elevNum a2 := hs.1 a2 ha2
        have h2 : elevNum a2 = elevNum c := congrArg keyElev hk
        have h3 : elevNum b = elevNum a := (congrArg keyElev h.1).symm
        show elevNum b ≤ elevNum c
        rw [h3, ← h2]
        exact h1
      · exact ih bs h.2 hs.2

/-- Filtering by a key-determined predicate commutes with equality of the
storey-key lists. -/
theorem filter_map_key_eq (p : JSVal × JSVal × Nat → Bool)
    (l1 l2 : List StoreyData) (h : l1.map storeyKey = l2.map storeyKey) :
    (l1.filter (fun s => p (storeyKey s))).map storeyKey =
      (l2.filter (fun s => p (storeyKey s))).map storeyKey := by
  induction l1 generalizing l2 with
  | nil =>
    cases l2 with
    | nil => rfl
    | cons b bs => simp at h
  | cons a as ih =>
    cases l2 with
    | nil => simp at h
    | cons b bs =>
      simp only [List.map_cons, List.cons.injEq] at h
      cases hp : p (storeyKey b) <;>
        simp [List.filter_cons, h.1, hp, ih bs h.2]

/-- Evaluation of the label format at the distance five. -/
theorem toFixed2_five : toFixed2 5 = "5.00" := by
  have h : ⌊|(5:ℚ)| * 100 + 1 / 2⌋ = 500 := by norm_num
  unfold toFixed2
  rw [h]
  decide

/-- C1 (amended): the aggregation pass only attaches not-yet-mapped
children — an element id already present in the element-to-storey map
stays mapped and is appended to no storey's `elementIDs` by that pass (its
occurrence count in every storey is unchanged).  The containment pass, by
contrast, records every resolved element reference unconditionally (see
the counterexample), so the original at-most-one / exactly-one invariant
fails. -/
theorem c1_aggregation_attaches_only_unmapped (api : IfcApi) (e : ℚ) (storeys : List StoreyData)
    (m : List (JSVal × JSVal)) (h : mapHas m (JSVal.num e) = true) :
    mapHas (aggregationPass api storeys m).2 (JSVal.num e) = true ∧
    (aggregationPass api storeys m).1.map (fun s => countE e s.elementIDs) =
      storeys.map (fun s => countE e s.elementIDs) :=
  aggregationPass_count e api storeys m h

/-- Counterexample to C1 as stated: in `cApi1`, element `100` is referenced
by containment relations of two different storeys and ends up in both
storeys' `elementIDs`, so its id does not appear in at most one storey's
set. -/
theorem c1_counterexample_element_in_two_storeys :
    ¬ (((storeySection cApi1).filter
      (fun s => s.elementIDs.any (fun v => jsEq v (JSVal.num 100)))).length ≤ 1) := by
  decide

/-- Witness for C1 (amended): the already-mapped element `7` is not
attached again by the aggregation pass. -/
theorem c1_aggregation_witness :
    mapHas aggMap (JSVal.num 7) = true ∧
    (mapHas (aggregationPass cApiAgg aggStoreys aggMap).2 (JSVal.num 7) = true ∧
     (aggregationPass cApiAgg aggStoreys aggMap).1.map (fun s => countE 7 s.elementIDs) =
       aggStoreys.map (fun s => countE 7 s.elementIDs)) :=
  ⟨rfl, c1_aggregation_attaches_only_unmapped cApiAgg 7 aggStoreys aggMap rfl⟩

/-- C2: gross floor area is computed by a three-tier fallback.  The result
equals the rounded sum of the space-resolver values when at least one
space resolved; otherwise the rounded sum of the slab-resolver values when
at least one slab resolved; otherwise the rounded sum of the slab
bounding-box XY areas when any slab had a box; otherwise `null`.  A tier
with at least one resolved value suppresses all later tiers, and with zero
space entities the slab property tier supplies the result. -/
theorem c2_gross_floor_area_fallback_tiers (api : IfcApi) :
    grossFloorArea api =
      if !(spaceAreaVals api).isEmpty then some (round2 (spaceAreaVals api).sum)
      else if !(slabAreaVals api).isEmpty then some (round2 (slabAreaVals api).sum)
      else if !(slabBBoxAreas api).isEmpty then some (round2 (slabBBoxAreas api).sum)
      else none := by
  simp only [grossFloorArea, foldl_sumFoundStep, spaceAreaVals.eq_def 
    , slabAreaVals.eq_def, slabBBoxAreas.eq_def] at *
  by_cases h1 : ((api.getLineIDsWithType IFCSPACE).filterMap
      (fun i => extractQuantityFromPsets api i spaceAreaNames)) = []
  case neg =>
    simp [h1, List.isEmpty_iff]
  case pos =>
    rw [h1]
    by_cases h2 : ((api.getLineIDsWithType IFCSLAB).filterMap
        (fun i => extractQuantityFromPsets api i slabAreaNames)) = []
    case neg =>
      simp [h2, List.isEmpty_iff]
    case pos =>
      rw [h2]
      by_cases h3 : ((api.getLineIDsWithType IFCSLAB).filterMap
          (fun i => (computeBoundingBox api i).map
            (fun bb => (bb.maxX - bb.minX) * (bb.maxY - bb.minY)))) = []
      case neg =>
        simp [h3, List.isEmpty_iff, foldl_sumFoundStep]
      case pos =>
        rw [h3]
        simp [foldl_sumFoundStep, h3]

/-- C3: total volume iterates the structural type set and, per individual
entity, uses the resolver value for the volume name set when non-null and
otherwise that entity's bounding-box volume `dx * dy * dz`; the total is
the rounded sum of those per-entity contributions, `null` when no entity
contributed. -/
theorem c3_total_volume_per_entity_fallback (api : IfcApi) :
    totalVolume api =
      if !(structuralVolumeVals api).isEmpty
      then some (round2 (structuralVolumeVals api).sum) else none := by
  have hfun : volumeStep api = sumFoundStep (volumeContrib api) := by
    funext acc i
    cases he : extractQuantityFromPsets api i volumeNames <;>
      cases hb : computeBoundingBox api i <;>
        simp [volumeStep, sumFoundStep, volumeContrib, he, hb]
  unfold totalVolume
  rw [hfun, foldl_sumFoundStep_nested]
  by_cases h : structuralVolumeVals api = []
  · simp only [structuralVolumeVals] at h
    simp [structuralVolumeVals, h]
  · simp only [structuralVolumeVals] at h
    simp [structuralVolumeVals, h, List.isEmpty_iff]

/-- C4: the quantity resolver is total.  Whenever the underlying traversal
raises at any step (`extractBody` errors), the caller still receives
`null`; in particular a missing entity id (a throwing `GetLine`) and a
falsy decoded record both yield `null` rather than a failure. -/
theorem c4_resolver_never_fails (api : IfcApi) (elementID : Nat) (names : List String) :
    (∀ u : Unit, extractBody api elementID names = .error u →
      extractQuantityFromPsets api elementID names = none) ∧
    (api.getLine elementID true = .error () →
      extractQuantityFromPsets api elementID names = none) ∧
    (∀ psets, api.getLine elementID true = .ok psets → psets.truthy = false →
      extractQuantityFromPsets api elementID names = none) := by
  refine ⟨?_, ?_, ?_⟩
  · intro u h
    simp [extractQuantityFromPsets, h]
  · intro h
    simp [extractQuantityFromPsets, extractBody, h]
  · intro psets h ht
    simp [extractQuantityFromPsets, extractBody, h, ht]

/-- Witness for C4 at a decoder that throws on every lookup. -/
theorem c4_resolver_never_fails_witness : extractQuantityFromPsets failApi 5 ["Volume"] = none :=
  (c4_resolver_never_fails failApi 5 ["Volume"]).2.1 rfl

/-- C5: baking a vertex applies `world = M * local` with implicit `w = 1`
in the column-major element layout (`M[0], M[4], M[8], M[12]` form the
first output row, and so on): the identity transform reproduces the input
coordinates exactly, a pure translation `(tx, ty, tz)` maps every vertex
to input plus translation, and the bounding-box path
(`computeBoundingBox`) and the mesh-baking path (`extractIFCGeometry`)
compute identical world coordinates for the same vertex and matrix. -/
theorem c5_transform_identity_translation_shared_path (m : Mat16) (x y z tx ty tz : ℚ) :
    bakeVertex identityMat x y z = ⟨x, y, z⟩ ∧
    bakeVertex (translationMat tx ty tz) x y z = ⟨x + tx, y + ty, z + tz⟩ ∧
    bakeVertex m x y z = applyPlacement m x y z ∧
    bakeVertex m x y z = specHomogeneousTransform m ⟨x, y, z⟩ := by
  refine ⟨?_, ?_, rfl, ?_⟩
  · simp [bakeVertex, identityMat]
  · simp [bakeVertex, translationMat]
  · simp [bakeVertex, specHomogeneousTransform]

/-- C6: code-bug demonstration at a concrete model load (box
`(0,0,0)-(2,1,1)`, largest dimension `2`, closure distance still at its
initial `50`).  The target is recentered and the intended value
`maxDim * 2` reaches only the dead `orbitRef.current.distance` snapshot
property; the closure variable `distance` that `updateCamera` reads is
unchanged, so the post-load camera position equals
`center + oldDistance * sphericalToCartesian(yaw, pitch)` and differs
from the `center + (2 * maxDim) * sphericalToCartesian(yaw, pitch)` the
claim asserts. -/
theorem c6_camera_distance_dead_store :
    (centerCameraOnModel (fun _ => 0) (fun _ => 1) orbitStart ⟨0, 0, 0⟩ ⟨2, 1, 1⟩).target =
        boxCenter ⟨0, 0, 0⟩ ⟨2, 1, 1⟩ ∧
    (centerCameraOnModel (fun _ => 0) (fun _ => 1) orbitStart
        ⟨0, 0, 0⟩ ⟨2, 1, 1⟩).snapshot.distance =
      maxDim ⟨0, 0, 0⟩ ⟨2, 1, 1⟩ * 2 ∧
    (centerCameraOnModel (fun _ => 0) (fun _ => 1) orbitStart ⟨0, 0, 0⟩ ⟨2, 1, 1⟩).distance =
        orbitStart.distance ∧
    (centerCameraOnModel (fun _ => 0) (fun _ => 1) orbitStart ⟨0, 0, 0⟩ ⟨2, 1, 1⟩).position =
        vecAdd (boxCenter ⟨0, 0, 0⟩ ⟨2, 1, 1⟩)
          (vecSmul orbitStart.distance
            (sphericalToCartesian (fun _ => 0) (fun _ => 1)
              orbitStart.rotY orbitStart.rotX)) ∧
    (centerCameraOnModel (fun _ => 0) (fun _ => 1) orbitStart ⟨0, 0, 0⟩ ⟨2, 1, 1⟩).position ≠
        vecAdd (boxCenter ⟨0, 0, 0⟩ ⟨2, 1, 1⟩)
          (vecSmul (2 * maxDim ⟨0, 0, 0⟩ ⟨2, 1, 1⟩)
            (sphericalToCartesian (fun _ => 0) (fun _ => 1)
              orbitStart.rotY orbitStart.rotX)) := by
  have hmd : maxDim ⟨0, 0, 0⟩ ⟨2, 1, 1⟩ = 2 := by
    norm_num [maxDim, boxSize, max_def]
  have hpos : (0:ℚ) < maxDim ⟨0, 0, 0⟩ ⟨2, 1, 1⟩ := by
    rw [hmd]
    norm_num
  unfold centerCameraOnModel
  rw [if_pos hpos]
  refine ⟨rfl, rfl, rfl, ?_, ?_⟩
  · norm_num [updateCamera, orbitStart, boxCenter, vecAdd, vecSmul,
      sphericalToCartesian, Vec3.mk.injEq]
  · rw [hmd]
    norm_num [updateCamera, orbitStart, boxCenter, vecAdd, vecSmul,
      sphericalToCartesian, Vec3.mk.injEq]

/-- C7 (amended): provided storey discovery completes without a decoder
throw and every discovered elevation is numeric (for non-numeric
elevations the JavaScript comparator returns `NaN` and the sort order is
implementation-defined), the parsed storeys sequence is sorted
non-decreasing by elevation, and the storeys at any fixed elevation appear
in their original discovery order (stability), where storeys are compared
by their name/elevation/id key. -/
theorem c7_storeys_sorted_stable_amended (api : IfcApi)
    (hok : (discoverLoop api (api.getLineIDsWithType IFCBUILDINGSTOREY) 0 []).2 = false)
    (hnum : (discoveredStoreys api).all (fun s => s.elevation.isNumber) = true) :
    List.Sorted storeyLe (storeySection api) ∧
    ∀ q : ℚ, ((storeySection api).filter (fun s => elevNum s == q)).map storeyKey =
      ((discoveredStoreys api).filter (fun s => elevNum s == q)).map storeyKey := by
  have hsec : storeySection api =
      (aggregationPass api
        (containmentPass api (sortStoreys (discoveredStoreys api)) []).1
        (containmentPass api (sortStoreys (discoveredStoreys api)) []).2).1 := by
    unfold storeySection discoveredStoreys
    simp only [hok, Bool.false_eq_true, if_false]
  have hkeys : (storeySection api).map storeyKey =
      (sortStoreys (discoveredStoreys api)).map storeyKey := by
    rw [hsec, aggregationPass_key]
    exact containmentPass_key api _ []
  constructor
  · exact sorted_of_map_key_eq _ _ hkeys.symm
      (List.sorted_insertionSort storeyLe (discoveredStoreys api))
  · intro q
    have ht := filter_map_key_eq (fun k => keyElev k == q)
      (sortStoreys (discoveredStoreys api)) (storeySection api) hkeys.symm
    have hstab := filter_sortStoreys_elev q (discoveredStoreys api)
    calc ((storeySection api).filter (fun s => elevNum s == q)).map storeyKey
        = ((sortStoreys (discoveredStoreys api)).filter
            (fun s => elevNum s == q)).map storeyKey := ht.symm
      _ = ((discoveredStoreys api).filter (fun s => elevNum s == q)).map storeyKey := by
          rw [hstab]

/-- Counterexample to C7 as stated: on a model whose third storey record
throws during discovery, the storey section aborts before sorting and
returns the first two storeys in discovery order with elevations `5`
then `3` — not sorted non-decreasing by elevation. -/
theorem c7_counterexample_unsorted_after_decode_throw : ¬ List.Sorted storeyLe (storeySection cApi7) := by decide

/-- Witness for C7 at a cleanly decoding two-storey model. -/
theorem c7_storeys_witness :
    (discoverLoop cApiW7 (cApiW7.getLineIDsWithType IFCBUILDINGSTOREY) 0 []).2 = false ∧
    (discoveredStoreys cApiW7).all (fun s => s.elevation.isNumber) = true ∧
    (List.Sorted storeyLe (storeySection cApiW7) ∧
     ∀ q : ℚ, ((storeySection cApiW7).filter (fun s => elevNum s == q)).map storeyKey =
       ((discoveredStoreys cApiW7).filter (fun s => elevNum s == q)).map storeyKey) :=
  ⟨rfl, rfl, c7_storeys_sorted_stable_amended cApiW7 rfl rfl⟩

/-- C8: a second pick in measurement mode appends a persistent measurement
whose label is the Euclidean distance between the two picked points
formatted to two decimals with the meter suffix (`d` is pinned to the true
distance by the square and sign hypotheses), clears the pending
first-point marker and its preview, and leaves the mode at `picking`,
ready for a new first pick. -/
theorem c8_second_pick_creates_measurement (sqrtF : ℚ → ℚ) (st : MeasureState) (p1 p2 : Vec3) (d : ℚ)
    (hm : st.mode = MeasureMode.picking) (hp : st.measurePoint = some p1)
    (hs : sqrtF (squaredDist p1 p2) = d) (hd : d * d = squaredDist p1 p2)
    (h0 : 0 ≤ d) :
    (onMeasureClick sqrtF st (some p2)).marks =
      st.marks ++ [{ pointA := p1, pointB := p2, label := toFixed2 d ++ " m" }] ∧
    (onMeasureClick sqrtF st (some p2)).measurePoint = none ∧
    (onMeasureClick sqrtF st (some p2)).preview = none ∧
    (onMeasureClick sqrtF st (some p2)).mode = MeasureMode.picking := by
  refine ⟨?_, ?_, ?_, ?_⟩ <;>
    simp [onMeasureClick, hp, createMeasurementLine, hs, hm]

/-- Witness for C8: picking the origin and then `(3, 4, 0)` reports the
distance `5.00`. -/
theorem c8_measurement_witness :
    (onMeasureClick (fun _ => 5) measureStart (some ⟨3, 4, 0⟩)).marks =
      [{ pointA := ⟨0, 0, 0⟩, pointB := ⟨3, 4, 0⟩, label := "5.00 m" }] ∧
    (onMeasureClick (fun _ => 5) measureStart (some ⟨3, 4, 0⟩)).measurePoint = none ∧
    (onMeasureClick (fun _ => 5) measureStart (some ⟨3, 4, 0⟩)).preview = none ∧
    (onMeasureClick (fun _ => 5) measureStart (some ⟨3, 4, 0⟩)).mode =
      MeasureMode.picking := by
  have h := c8_second_pick_creates_measurement (fun _ => 5) measureStart ⟨0, 0, 0⟩ ⟨3, 4, 0⟩ 5 rfl rfl rfl
    (by norm_num [squaredDist]) (by norm_num)
  refine ⟨?_, h.2.1, h.2.2.1, h.2.2.2⟩
  rw [h.1, toFixed2_five]
  rfl

/-- C9: the storey mesh filter returns the full unfiltered mesh list when
no storey is selected (`null` selection), and returns zero meshes when the
selected storey's `elementIDs` set is empty. -/
theorem c9_filter_null_selection_and_empty_storey (bd : Option (List StoreyData)) (all : List MeshData)
    (q : ℚ) (storeys : List StoreyData) (storey : StoreyData) :
    filteredMeshes none bd all = all ∧
    (q ≠ 0 → bd = some storeys →
      storeys.find? (fun s => (s.expressID : ℚ) == q) = some storey →
      storey.elementIDs = [] →
      filteredMeshes (some q) bd all = []) := by
  constructor
  · rfl
  · intro hq hbd hfind hempty
    simp [filteredMeshes, hbd, hfind, hempty, hq]

/-- Witness for C9: a selected storey with an empty element set filters
every mesh away. -/
theorem c9_filter_witness :
    ((9:ℚ) ≠ 0) ∧
    ([storeyEmpty].find? (fun s => (s.expressID : ℚ) == (9:ℚ)) = some storeyEmpty) ∧
    filteredMeshes (some 9) (some [storeyEmpty]) [mesh1] = [] := by
  refine ⟨by norm_num, rfl, ?_⟩
  exact (c9_filter_null_selection_and_empty_storey (some [storeyEmpty]) [mesh1] 9 [storeyEmpty] storeyEmpty).2
    (by norm_num) rfl rfl rfl

/-- C10: for a selected storey id that does not match any storey of the
current building data — and likewise for the id `0`, which the falsiness
guard treats the same as no selection — the mesh filter returns the
complete unfiltered mesh list rather than an empty list. -/
theorem c10_filter_unmatched_or_zero_selection (q : ℚ) (bd : Option (List StoreyData))
    (storeys : List StoreyData) (all : List MeshData) :
    filteredMeshes (some 0) bd all = all ∧
    (q ≠ 0 → bd = some storeys →
      storeys.find? (fun s => (s.expressID : ℚ) == q) = none →
      filteredMeshes (some q) bd all = all) := by
  constructor
  · rfl
  · intro hq hbd hfind
    simp [filteredMeshes, hbd, hfind, hq]

/-- Witness for C10: the id `0` and an unmatched id both leave the mesh
list unfiltered. -/
theorem c10_filter_witness :
    filteredMeshes (some 0) (some [storeyEmpty]) [mesh1] = [mesh1] ∧
    (((77:ℚ) ≠ 0) ∧
     [storeyEmpty].find? (fun s => (s.expressID : ℚ) == (77:ℚ)) = none ∧
     filteredMeshes (some 77) (some [storeyEmpty]) [mesh1] = [mesh1]) := by
  refine ⟨(c10_filter_unmatched_or_zero_selection 77 (some [storeyEmpty]) [storeyEmpty] [mesh1]).1, by norm_num, rfl, ?_⟩
  exact (c10_filter_unmatched_or_zero_selection 77 (some [storeyEmpty]) [storeyEmpty] [mesh1]).2 (by norm_num) rfl rfl

end BimQuantify
